import Mathlib

/-!
# Verification of `slogkit.ContextHandler` (entrylens/godash)

A shallow embedding of `src/slogkit/context_handler.go`: a decorator over a
structured-log sink that enriches records with caller-location, process-id,
static, and context-derived attributes, while itself remaining a conformant
handler.

Modelling conventions:
* `slog.Attr` becomes `Attr` (a key and a typed value).
* `slog.Record` becomes `Record`; `Record.addAttrs` models `r.AddAttrs`.
* `context.Context` becomes the inductive `Ctx`; `Ctx.background` is the
  canonical `context.Background()` value, and the Go identity comparison
  `ctx == context.Background()` becomes decidable equality with
  `Ctx.background`.
* The wrapped `slog.Handler` (Text/JSON handler, possibly specialized via
  `WithAttrs`/`WithGroup`) becomes `Sink`: its minimum level, its writer,
  the attributes baked in so far (each remembered together with the group
  path that was open when it was added), and the currently open group path.
  `Sink.handle` formats a record: baked attributes first, then the record
  attributes qualified by the open group path; it returns the writer's
  error, exactly as the Go handler returns the write error.
* `runtime.Caller(skip)` becomes a lookup into an explicit call-stack
  argument (`List Frame`), passed to `Handle` as part of its environment.
* `os.Getpid()` becomes an explicit `pid` argument to the constructor.
* The diagnostic side channel (`slog.Error` on the process-wide default
  logger) becomes the `diagnostics` field of `HandleOut`, kept separate
  from the records delegated to this handler's own sink (`emitted`).
* `HandleOut.extractorCalls` counts, structurally, how many times `Handle`
  invokes the configured extractor, so that call-counting-extractor claims
  are directly statable.
-/

/-- A typed attribute value (`slog.Value`, restricted to the kinds the
repository uses: strings and integers). -/
inductive AttrVal where
  | str : String → AttrVal
  | int : Int → AttrVal
deriving DecidableEq, Repr

/-- Model of `slog.Attr`: a key and a typed value. -/
structure Attr where
  key : String
  val : AttrVal
deriving DecidableEq, Repr

/-- Model of `slog.Record`: level, creation time, message, and the ordered list of
attributes carried by this emission. -/
structure Record where
  level : Int
  time : Int
  msg : String
  attrs : List Attr
deriving DecidableEq, Repr

/-- Model of `Record.AddAttrs`: append attributes to the record, in order. -/
def Record.addAttrs (r : Record) (as : List Attr) : Record :=
  { r with attrs := r.attrs ++ as }

/-- Model of `context.Context`: either the canonical background context or a context
derived from a parent by attaching a key/value pair
(`context.WithValue`). -/
inductive Ctx where
  | background : Ctx
  | withValue : Ctx → String → String → Ctx
deriving DecidableEq, Repr

/-- An output destination (`io.Writer`). `writeErr` models whether writes to
this destination fail, so that sink write-error propagation is statable. -/
structure LogWriter where
  id : Nat
  writeErr : Option String
deriving DecidableEq, Repr

/-- The process standard output, the default destination. -/
def LogWriter.stdout : LogWriter := { id := 0, writeErr := none }

/-- An attribute as it appears in formatted output: the group path it nests
under, and the attribute itself. -/
abbrev QualAttr := List String × Attr

/-- A record as emitted by the base sink: level, time, message, and the
group-qualified attributes in output order. -/
structure OutRecord where
  level : Int
  time : Int
  msg : String
  attrs : List QualAttr
deriving DecidableEq, Repr

/-- The base sink (`slog.Handler` produced by `slog.NewTextHandler` or
`slog.NewJSONHandler`, then specialized by `WithAttrs`/`WithGroup`):
minimum level, encoding selector, destination, baked attributes (each with
the group path open at the time it was baked), and the currently open
group path. -/
structure Sink where
  minLevel : Int
  useJson : Bool
  writer : LogWriter
  baked : List QualAttr
  openGroups : List String
deriving DecidableEq, Repr

/-- Model of `slog.Handler.Enabled`: a record level is enabled iff it is at or above
the configured minimum level. -/
def Sink.enabled (s : Sink) (lvl : Int) : Bool :=
  s.minLevel ≤ lvl

/-- Model of `slog.Handler.WithAttrs` on the base sink: bake the attributes under the
currently open group path. -/
def Sink.withAttrs (s : Sink) (as : List Attr) : Sink :=
  { s with baked := s.baked ++ as.map (fun a => (s.openGroups, a)) }

/-- Model of `slog.Handler.WithGroup` on the base sink: open one more group; all
attributes added later nest under it. -/
def Sink.withGroup (s : Sink) (name : String) : Sink :=
  { s with openGroups := s.openGroups ++ [name] }

/-- Model of `slog.Handler.Handle` on the base sink: format the record — baked
attributes first, then the record's own attributes qualified by the open
group path — and return the writer's error. The base handler does not
filter by level here; that check lives in `Enabled` and is performed by the
logger front end. The context argument is ignored by the Text/JSON
handlers. -/
def Sink.handle (s : Sink) (_ctx : Ctx) (r : Record) : OutRecord × Option String :=
  ({ level := r.level, time := r.time, msg := r.msg,
     attrs := s.baked ++ r.attrs.map (fun a => (s.openGroups, a)) },
   s.writer.writeErr)

/-- A call-stack frame as seen by `runtime.Caller`: file and line. -/
abbrev Frame := String × Int

/-- Model of `runtime.Caller(skip)`: walking the call stack upward by `skip` frames;
`none` models `ok = false` (resolution failure), including for negative
skip values. -/
def runtimeCaller (skip : Int) (stack : List Frame) : Option Frame :=
  if skip < 0 then none else stack[skip.toNat]?

/-- Model of `slogkit.ContextHandlerOptions`, field for field. A `none` writer stands
for the nil writer (defaulted to standard output); the extractor returns
attributes together with an optional error, as the Go function returns
`([]slog.Attr, error)`. -/
structure ContextHandlerOptions where
  useJson : Bool
  level : Int
  addSource : Bool
  sourceKey : String
  writer : Option LogWriter
  withPID : Bool
  pidKey : String
  callerSkip : Int
  extraAttrs : List Attr
  appendAttrFromContext : Option (Ctx → List Attr × Option String)

/-- Model of `slogkit.ContextHandler`: the embedded `slog.Handler` plus the copied
enrichment configuration. -/
structure ContextHandler where
  handler : Sink
  addSource : Bool
  sourceKey : String
  callerSkip : Int
  appendAttrFromContext : Option (Ctx → List Attr × Option String)

/-- Model of `slogkit.NewContextHandler`: build the base Text/JSON sink over the
configured writer (default standard output) with the given level and
source tracking disabled, bake the pid attribute when `withPID` is set
(key defaulting to `"pid"`), bake the extra attributes when present, and
wrap it with the enrichment configuration. `pid` is the value of
`os.Getpid()`. -/
def NewContextHandler (options : ContextHandlerOptions) (pid : Int) : ContextHandler :=
  let writer := options.writer.getD LogWriter.stdout
  let handler : Sink :=
    { minLevel := options.level, useJson := options.useJson, writer := writer,
      baked := [], openGroups := [] }
  let handler :=
    if options.withPID then
      let pidKey := if options.pidKey = "" then "pid" else options.pidKey
      handler.withAttrs [⟨pidKey, .int pid⟩]
    else handler
  let handler :=
    if options.extraAttrs.length > 0 then handler.withAttrs options.extraAttrs
    else handler
  { handler := handler,
    addSource := options.addSource,
    sourceKey := options.sourceKey,
    callerSkip := options.callerSkip,
    appendAttrFromContext := options.appendAttrFromContext }

/-- Model of `ContextHandler.Enabled`, promoted from the embedded handler by Go
struct embedding: pure delegation to the wrapped sink's filter. -/
def ContextHandler.enabled (h : ContextHandler) (lvl : Int) : Bool :=
  h.handler.enabled lvl

/-- Step 1 of `ContextHandler.Handle`: when add-source is on, resolve the
call site by walking the stack upward by the configured skip depth
(3 when the configured depth is 0) and, on success, append one attribute
(key = configured `SourceKey` or `"source"`, value `"<file>:<line>"`);
on failure, leave the record unchanged. -/
def ContextHandler.sourceEnrich (h : ContextHandler) (stack : List Frame) (r : Record) : Record :=
  if h.addSource then
    match runtimeCaller (if h.callerSkip = 0 then 3 else h.callerSkip) stack with
    | some (file, line) =>
      r.addAttrs [⟨if h.sourceKey = "" then "source" else h.sourceKey,
        .str (file ++ ":" ++ toString line)⟩]
    | none => r
  else r

/-- The observable effects of one `Handle` call: the records delegated to
this handler's own wrapped sink, the messages sent to the diagnostic side
channel (the process-wide default logger via `slog.Error`), how many times
the configured extractor was invoked, and the error returned to the
caller. -/
structure HandleOut where
  emitted : List OutRecord
  diagnostics : List String
  extractorCalls : Nat
  result : Option String
deriving DecidableEq, Repr

/-- Model of `ContextHandler.Handle`, transcribed from the Go source: source
enrichment first; if the context is the canonical background context,
delegate immediately; otherwise, if an extractor is configured, invoke it —
on error, log a diagnostic through the side channel and append nothing, on
success append the returned attributes — then delegate to the wrapped sink
and return its result. -/
def ContextHandler.handle (h : ContextHandler) (stack : List Frame) (ctx : Ctx) (r : Record) :
    HandleOut :=
  let r := h.sourceEnrich stack r
  if ctx = Ctx.background then
    { emitted := [(h.handler.handle ctx r).1], diagnostics := [],
      extractorCalls := 0, result := (h.handler.handle ctx r).2 }
  else
    match h.appendAttrFromContext with
    | some f =>
      match (f ctx).2 with
      | some e =>
        { emitted := [(h.handler.handle ctx r).1],
          diagnostics := ["failed to append attributes from context: " ++ e],
          extractorCalls := 1, result := (h.handler.handle ctx r).2 }
      | none =>
        let r2 := r.addAttrs (f ctx).1
        { emitted := [(h.handler.handle ctx r2).1], diagnostics := [],
          extractorCalls := 1, result := (h.handler.handle ctx r2).2 }
    | none =>
      { emitted := [(h.handler.handle ctx r).1], diagnostics := [],
        extractorCalls := 0, result := (h.handler.handle ctx r).2 }

/-- Model of `ContextHandler.WithAttrs`: a new instance wrapping
`handler.WithAttrs(attrs)`; the enrichment configuration is copied
unchanged. -/
def ContextHandler.withAttrs (h : ContextHandler) (attrs : List Attr) : ContextHandler :=
  { handler := h.handler.withAttrs attrs,
    addSource := h.addSource,
    sourceKey := h.sourceKey,
    callerSkip := h.callerSkip,
    appendAttrFromContext := h.appendAttrFromContext }

/-- Model of `ContextHandler.WithGroup`: a new instance wrapping
`handler.WithGroup(name)`; the enrichment configuration is copied
unchanged. -/
def ContextHandler.withGroup (h : ContextHandler) (name : String) : ContextHandler :=
  { handler := h.handler.withGroup name,
    addSource := h.addSource,
    sourceKey := h.sourceKey,
    callerSkip := h.callerSkip,
    appendAttrFromContext := h.appendAttrFromContext }

/-- One derivation step on a handler: `WithAttrs` or `WithGroup`. -/
inductive Deriv where
  | attrs : List Attr → Deriv
  | group : String → Deriv

/-- Apply a chain of derivation steps, left to right. -/
def applyDerivs (h : ContextHandler) : List Deriv → ContextHandler
  | [] => h
  | Deriv.attrs as :: ds => applyDerivs (h.withAttrs as) ds
  | Deriv.group n :: ds => applyDerivs (h.withGroup n) ds

/-- The logger front end (`slog.Logger.log`): check `Enabled` for the
record's level and, only when it passes, call `Handle`. A record below the
minimum level is a silent no-op. -/
def loggerLog (h : ContextHandler) (stack : List Frame) (ctx : Ctx) (r : Record) :
    Option HandleOut :=
  if h.enabled r.level then some (h.handle stack ctx r) else none

/-! ## Shared structural lemmas -/

/-- A derivation chain never changes the enrichment configuration. -/
theorem applyDerivs_config (h : ContextHandler) (ds : List Deriv) :
    (applyDerivs h ds).addSource = h.addSource ∧
    (applyDerivs h ds).sourceKey = h.sourceKey ∧
    (applyDerivs h ds).callerSkip = h.callerSkip ∧
    (applyDerivs h ds).appendAttrFromContext = h.appendAttrFromContext := by
  induction ds generalizing h with
  | nil => exact ⟨rfl, rfl, rfl, rfl⟩
  | cons d ds ih =>
    cases d with
    | attrs as => exact ih (h.withAttrs as)
    | group n => exact ih (h.withGroup n)

/-- A derivation chain never changes the wrapped sink's minimum level. -/
theorem applyDerivs_minLevel (h : ContextHandler) (ds : List Deriv) :
    (applyDerivs h ds).handler.minLevel = h.handler.minLevel := by
  induction ds generalizing h with
  | nil => rfl
  | cons d ds ih =>
    cases d with
    | attrs as => exact ih (h.withAttrs as)
    | group n => exact ih (h.withGroup n)

/-- Attributes already baked into the wrapped sink survive any derivation
chain. -/
theorem applyDerivs_baked_mem (h : ContextHandler) (ds : List Deriv) (qa : QualAttr)
    (hm : qa ∈ h.handler.baked) : qa ∈ (applyDerivs h ds).handler.baked := by
  induction ds generalizing h with
  | nil => exact hm
  | cons d ds ih =>
    cases d with
    | attrs as => exact ih (h.withAttrs as) (List.mem_append_left _ hm)
    | group n => exact ih (h.withGroup n) hm

/-- Lemma: `Handle` delegates exactly one record to the wrapped sink, on every
path. -/
theorem handle_emitted_len (h : ContextHandler) (stack : List Frame) (ctx : Ctx)
    (r : Record) : (h.handle stack ctx r).emitted.length = 1 := by
  unfold ContextHandler.handle
  split
  · rfl
  · cases hA : h.appendAttrFromContext with
    | none => rfl
    | some f =>
      rcases hf : f ctx with ⟨attrs, ferr⟩
      cases ferr <;> simp [hf]

/-- Every record `Handle` delegates carries all attributes baked into the
wrapped sink. -/
theorem handle_emitted_baked (h : ContextHandler) (stack : List Frame) (ctx : Ctx)
    (r : Record) (rec : OutRecord) (hrec : rec ∈ (h.handle stack ctx r).emitted)
    (qa : QualAttr) (hqa : qa ∈ h.handler.baked) : qa ∈ rec.attrs := by
  unfold ContextHandler.handle at hrec
  split at hrec
  · simp [Sink.handle] at hrec
    subst hrec
    exact List.mem_append_left _ hqa
  · cases hA : h.appendAttrFromContext with
    | none =>
      rw [hA] at hrec
      simp [Sink.handle] at hrec
      subst hrec
      exact List.mem_append_left _ hqa
    | some f =>
      rw [hA] at hrec
      rcases hf : f ctx with ⟨attrs, ferr⟩
      cases ferr <;>
        · simp [hf, Sink.handle] at hrec
          subst hrec
          exact List.mem_append_left _ hqa

/-- Lemma: the factory sets the wrapped sink's minimum level to the
configured level. -/
theorem newContextHandler_minLevel (options : ContextHandlerOptions) (pid : Int) :
    (NewContextHandler options pid).handler.minLevel = options.level := by
  simp only [NewContextHandler]
  split <;> split <;> rfl

/-- Lemma: the factory-built sink has no open group. -/
theorem newContextHandler_openGroups (options : ContextHandlerOptions) (pid : Int) :
    (NewContextHandler options pid).handler.openGroups = [] := by
  simp only [NewContextHandler]
  split <;> split <;> rfl

/-- Lemma: with `withPID` set, the pid attribute (under the empty group
path) is baked into the factory-built sink. -/
theorem newContextHandler_pid_baked (options : ContextHandlerOptions) (pid : Int)
    (hp : options.withPID = true) :
    (([], ⟨if options.pidKey = "" then "pid" else options.pidKey, .int pid⟩) : QualAttr)
      ∈ (NewContextHandler options pid).handler.baked := by
  simp only [NewContextHandler, hp, if_true]
  split
  · exact List.mem_append_left _ (by simp [Sink.withAttrs])
  · simp [Sink.withAttrs]

/-- Lemma: `Handle` always returns exactly the wrapped sink's write result. -/
theorem handle_result_eq (h : ContextHandler) (stack : List Frame) (ctx : Ctx)
    (r : Record) : (h.handle stack ctx r).result = h.handler.writer.writeErr := by
  unfold ContextHandler.handle
  split
  · rfl
  · cases hA : h.appendAttrFromContext with
    | none => rfl
    | some f =>
      rcases hf : f ctx with ⟨attrs, ferr⟩
      cases ferr <;> simp [hf, Sink.handle]

/-- Lemma: source enrichment only appends; existing record attributes
survive. -/
theorem sourceEnrich_mem_of_mem (h : ContextHandler) (stack : List Frame) (r : Record)
    (a : Attr) (ha : a ∈ r.attrs) : a ∈ (h.sourceEnrich stack r).attrs := by
  unfold ContextHandler.sourceEnrich
  split
  · rcases runtimeCaller (if h.callerSkip = 0 then 3 else h.callerSkip) stack with _ | ⟨file, line⟩
    · exact ha
    · exact List.mem_append_left _ ha
  · exact ha

/-- Lemma: with add-source on and a resolvable call site, the source
attribute is among the enriched record's attributes. -/
theorem sourceEnrich_src_mem (h : ContextHandler) (stack : List Frame) (r : Record)
    (file : String) (line : Int) (hsrc : h.addSource = true)
    (hc : runtimeCaller (if h.callerSkip = 0 then 3 else h.callerSkip) stack
      = some (file, line)) :
    (⟨if h.sourceKey = "" then "source" else h.sourceKey,
      .str (file ++ ":" ++ toString line)⟩ : Attr) ∈ (h.sourceEnrich stack r).attrs := by
  unfold ContextHandler.sourceEnrich
  simp [hsrc, hc, Record.addAttrs]

/-- Lemma: every record `Handle` delegates carries every attribute of the
source-enriched record, qualified under the sink's open group path. -/
theorem handle_emitted_record_attrs (h : ContextHandler) (stack : List Frame)
    (ctx : Ctx) (r : Record) (rec : OutRecord)
    (hrec : rec ∈ (h.handle stack ctx r).emitted) (a : Attr)
    (ha : a ∈ (h.sourceEnrich stack r).attrs) :
    (h.handler.openGroups, a) ∈ rec.attrs := by
  unfold ContextHandler.handle at hrec
  split at hrec
  · simp [Sink.handle] at hrec
    subst hrec
    exact List.mem_append_right _ (List.mem_map_of_mem _ ha)
  · cases hA : h.appendAttrFromContext with
    | none =>
      rw [hA] at hrec
      simp [Sink.handle] at hrec
      subst hrec
      exact List.mem_append_right _ (List.mem_map_of_mem _ ha)
    | some f =>
      rw [hA] at hrec
      rcases hf : f ctx with ⟨attrs, ferr⟩
      cases ferr <;> simp [hf, Sink.handle] at hrec <;> subst hrec
      · exact List.mem_append_right _
          (List.mem_map_of_mem _ (List.mem_append_left _ ha))
      · exact List.mem_append_right _ (List.mem_map_of_mem _ ha)

/-! ## Claim theorems -/

/-- C1: with a configured context-attribute extractor and a non-background
context, if the extractor returns an error then `Handle` still delegates
exactly one record — the source-enriched record with none of the
extractor's attributes appended — never propagates the extractor's error
(the returned value is the wrapped sink's write result), and surfaces the
failure exactly once on the diagnostic side channel, which is separate
from this handler's own sink. -/
theorem handle_extractor_failure (h : ContextHandler) (stack : List Frame) (ctx : Ctx)
    (r : Record) (f : Ctx → List Attr × Option String) (e : String)
    (hctx : ctx ≠ Ctx.background) (hA : h.appendAttrFromContext = some f)
    (he : (f ctx).2 = some e) :
    h.handle stack ctx r =
      { emitted := [(h.handler.handle ctx (h.sourceEnrich stack r)).1],
        diagnostics := ["failed to append attributes from context: " ++ e],
        extractorCalls := 1,
        result := h.handler.writer.writeErr } := by
  unfold ContextHandler.handle
  simp [hctx, hA, he, Sink.handle]

/-- C2: with the canonical background context, the configured extractor is
never invoked (zero extractor calls are observed, whatever the extractor
is) and the record is delegated directly to the wrapped sink. -/
theorem handle_background_skips_extractor (h : ContextHandler) (stack : List Frame)
    (r : Record) :
    (h.handle stack Ctx.background r).extractorCalls = 0 ∧
    h.handle stack Ctx.background r =
      { emitted := [(h.handler.handle Ctx.background (h.sourceEnrich stack r)).1],
        diagnostics := [], extractorCalls := 0,
        result := (h.handler.handle Ctx.background (h.sourceEnrich stack r)).2 } :=
  ⟨rfl, rfl⟩

/-- C3: with add-source enabled, `Handle` resolves the call site by walking
the call stack upward by the configured skip depth (3 when unset); on
success the record gains exactly one attribute, keyed by the configured
`SourceKey` or `"source"`, valued `"<file>:<line>"`; on resolution failure
the record is unchanged; and that step contributes no error (`Handle`
still returns exactly the sink's write result). -/
theorem handle_add_source (h : ContextHandler) (stack : List Frame) (ctx : Ctx)
    (r : Record) (hsrc : h.addSource = true) :
    (h.sourceEnrich stack r).attrs =
      r.attrs ++
        (match runtimeCaller (if h.callerSkip = 0 then 3 else h.callerSkip) stack with
         | some (file, line) =>
           [⟨if h.sourceKey = "" then "source" else h.sourceKey,
             .str (file ++ ":" ++ toString line)⟩]
         | none => []) ∧
    (h.handle stack ctx r).result = h.handler.writer.writeErr := by
  refine ⟨?_, handle_result_eq h stack ctx r⟩
  unfold ContextHandler.sourceEnrich
  rcases runtimeCaller (if h.callerSkip = 0 then 3 else h.callerSkip) stack with _ | ⟨file, line⟩ <;>
    simp [hsrc, Record.addAttrs]

/-- C4: `WithAttrs` and `WithGroup` each return a new handler wrapping the
sink derived by the wrapped sink's own `WithAttrs`/`WithGroup`, with the
enrichment configuration (`AddSource`, `SourceKey`, `CallerSkip`,
extractor) copied unchanged — the receiver, a pure value, is untouched —
and the configuration survives an arbitrary chain of derivations. -/
theorem withDerivations_preserve_config (h : ContextHandler) (as : List Attr)
    (name : String) (ds : List Deriv) :
    (h.withAttrs as).handler = h.handler.withAttrs as ∧
    (h.withGroup name).handler = h.handler.withGroup name ∧
    (h.withAttrs as).addSource = h.addSource ∧
    (h.withAttrs as).sourceKey = h.sourceKey ∧
    (h.withAttrs as).callerSkip = h.callerSkip ∧
    (h.withAttrs as).appendAttrFromContext = h.appendAttrFromContext ∧
    (h.withGroup name).addSource = h.addSource ∧
    (h.withGroup name).sourceKey = h.sourceKey ∧
    (h.withGroup name).callerSkip = h.callerSkip ∧
    (h.withGroup name).appendAttrFromContext = h.appendAttrFromContext ∧
    (applyDerivs h ds).addSource = h.addSource ∧
    (applyDerivs h ds).sourceKey = h.sourceKey ∧
    (applyDerivs h ds).callerSkip = h.callerSkip ∧
    (applyDerivs h ds).appendAttrFromContext = h.appendAttrFromContext := by
  obtain ⟨h1, h2, h3, h4⟩ := applyDerivs_config h ds
  exact ⟨rfl, rfl, rfl, rfl, rfl, rfl, rfl, rfl, rfl, rfl, h1, h2, h3, h4⟩

/-- C5: with `withPID` enabled, every record emitted at or above the
minimum level — through the factory-built handler or any chain of
`WithAttrs`/`WithGroup` derivations — contains the attribute with key
`pidKey` (default `"pid"`) holding the process identifier, baked into the
wrapped sink at construction. -/
theorem pid_survives_derivations (options : ContextHandlerOptions) (pid : Int)
    (ds : List Deriv) (stack : List Frame) (ctx : Ctx) (r : Record)
    (hp : options.withPID = true) (hl : options.level ≤ r.level) :
    ∃ out : HandleOut,
      loggerLog (applyDerivs (NewContextHandler options pid) ds) stack ctx r = some out ∧
      ∀ rec ∈ out.emitted,
        (([], ⟨if options.pidKey = "" then "pid" else options.pidKey, .int pid⟩) : QualAttr)
          ∈ rec.attrs := by
  have hmem := applyDerivs_baked_mem (NewContextHandler options pid) ds _
    (newContextHandler_pid_baked options pid hp)
  have hminl : (applyDerivs (NewContextHandler options pid) ds).handler.minLevel
      = options.level := by
    rw [applyDerivs_minLevel, newContextHandler_minLevel]
  refine ⟨(applyDerivs (NewContextHandler options pid) ds).handle stack ctx r, ?_, ?_⟩
  · simp [loggerLog, ContextHandler.enabled, Sink.enabled, hminl, hl]
  · intro rec hrec
    exact handle_emitted_baked _ stack ctx r rec hrec _ hmem

/-- C6: `Handle` returns exactly the value returned by the wrapped sink's
emit operation — the sink's write result is propagated verbatim, and it is
the only error that can cross this layer's boundary (on every control
path, extractor and source-resolution failures included, the returned
value is the sink's write result). -/
theorem handle_result_verbatim (h : ContextHandler) (stack : List Frame) (ctx : Ctx)
    (r : Record) :
    (h.handle stack ctx r).result = (h.handler.handle ctx (h.sourceEnrich stack r)).2 ∧
    (h.handle stack ctx r).result = h.handler.writer.writeErr :=
  ⟨handle_result_eq h stack ctx r, handle_result_eq h stack ctx r⟩

/-- C7: the level check is a pure delegation to the wrapped sink's filter
configured with the constructed minimum level, and output is produced
through the logger front end iff the record's level is at or above that
minimum. -/
theorem enabled_delegates_and_filters (options : ContextHandlerOptions) (pid : Int)
    (stack : List Frame) (ctx : Ctx) (r : Record) :
    (NewContextHandler options pid).enabled r.level
      = (NewContextHandler options pid).handler.enabled r.level ∧
    ((NewContextHandler options pid).enabled r.level = true ↔ options.level ≤ r.level) ∧
    ((loggerLog (NewContextHandler options pid) stack ctx r).isSome = true ↔
      options.level ≤ r.level) := by
  refine ⟨rfl, ?_, ?_⟩ <;>
    by_cases hl : options.level ≤ r.level <;>
      simp [loggerLog, ContextHandler.enabled, Sink.enabled, newContextHandler_minLevel,
        hl]

/-- C8: deriving a factory-built handler with the attribute static = "x"
and then with group "g", then emitting a record carrying the attribute
("k","v"), yields an emitted record in which k nests under group g, static
remains outside g (at the empty group path), and the source and pid
attributes, when enabled (and, for source, when the call site resolves),
are present. -/
theorem derive_then_emit_grouping (options : ContextHandlerOptions) (pid : Int)
    (stack : List Frame) (ctx : Ctx) (lvl t : Int) (msg : String) :
    ∀ rec ∈ ((((NewContextHandler options pid).withAttrs
        [⟨"static", .str "x"⟩]).withGroup "g").handle stack ctx
        { level := lvl, time := t, msg := msg, attrs := [⟨"k", .str "v"⟩] }).emitted,
      ((["g"], ⟨"k", .str "v"⟩) : QualAttr) ∈ rec.attrs ∧
      (([], ⟨"static", .str "x"⟩) : QualAttr) ∈ rec.attrs ∧
      (options.withPID = true →
        (([], ⟨if options.pidKey = "" then "pid" else options.pidKey, .int pid⟩) : QualAttr)
          ∈ rec.attrs) ∧
      (options.addSource = true →
        ∀ file line,
          runtimeCaller (if options.callerSkip = 0 then 3 else options.callerSkip) stack
            = some (file, line) →
          ∃ path, ((path, ⟨if options.sourceKey = "" then "source" else options.sourceKey,
            .str (file ++ ":" ++ toString line)⟩) : QualAttr) ∈ rec.attrs) := by
  intro rec hrec
  have hog : (((NewContextHandler options pid).withAttrs
      [⟨"static", .str "x"⟩]).withGroup "g").handler.openGroups = ["g"] := by
    show ((NewContextHandler options pid).handler.openGroups ++ ["g"]) = ["g"]
    rw [newContextHandler_openGroups]
    rfl
  refine ⟨?_, ?_, ?_, ?_⟩
  · have hk : (⟨"k", .str "v"⟩ : Attr) ∈
        ({ level := lvl, time := t, msg := msg,
           attrs := [⟨"k", .str "v"⟩] } : Record).attrs := by simp
    have := handle_emitted_record_attrs _ stack ctx _ rec hrec _
      (sourceEnrich_mem_of_mem _ stack _ _ hk)
    rwa [hog] at this
  · have hstatic : (([], ⟨"static", .str "x"⟩) : QualAttr) ∈
        (((NewContextHandler options pid).withAttrs
          [⟨"static", .str "x"⟩]).withGroup "g").handler.baked := by
      show _ ∈ (NewContextHandler options pid).handler.baked ++
        [⟨"static", .str "x"⟩].map
          (fun a => ((NewContextHandler options pid).handler.openGroups, a))
      rw [newContextHandler_openGroups]
      exact List.mem_append_right _ (by simp)
    exact handle_emitted_baked _ stack ctx _ rec hrec _ hstatic
  · intro hp
    have hpid : (([], ⟨if options.pidKey = "" then "pid" else options.pidKey,
        .int pid⟩) : QualAttr) ∈
        (((NewContextHandler options pid).withAttrs
          [⟨"static", .str "x"⟩]).withGroup "g").handler.baked := by
      show _ ∈ (NewContextHandler options pid).handler.baked ++ _
      exact List.mem_append_left _ (newContextHandler_pid_baked options pid hp)
    exact handle_emitted_baked _ stack ctx _ rec hrec _ hpid
  · intro hsrc file line hc
    refine ⟨["g"], ?_⟩
    have hmem := sourceEnrich_src_mem
      (((NewContextHandler options pid).withAttrs [⟨"static", .str "x"⟩]).withGroup "g")
      stack { level := lvl, time := t, msg := msg, attrs := [⟨"k", .str "v"⟩] }
      file line hsrc hc
    have := handle_emitted_record_attrs _ stack ctx _ rec hrec _ hmem
    rwa [hog] at this

/-- C9: determinism — two handlers built from identical configuration (and
the same process id), invoked with the same call stack, equal contexts and
structurally equal records, produce identical output; in particular the
outputs agree modulo the source-location and timestamp fields. -/
theorem identical_config_identical_output (options : ContextHandlerOptions)
    (pid : Int) (stack : List Frame) (ctx1 ctx2 : Ctx) (r1 r2 : Record)
    (hctx : ctx1 = ctx2) (hr : r1 = r2) :
    (NewContextHandler options pid).handle stack ctx1 r1 =
      (NewContextHandler options pid).handle stack ctx2 r2 := by
  subst hctx
  subst hr
  rfl

/-- C10: `Handle` itself performs no level-based filtering — it always
delegates exactly one record to the wrapped sink, and its output is
unchanged under an arbitrary replacement of the sink's minimum level; the
minimum-level cutoff is observable only through the `Enabled` check
exercised by the logger front end. -/
theorem handle_no_level_filter (h : ContextHandler) (stack : List Frame) (ctx : Ctx)
    (r : Record) (lvl : Int) :
    (h.handle stack ctx r).emitted.length = 1 ∧
    ContextHandler.handle
      { h with handler := { h.handler with minLevel := lvl } } stack ctx r
      = h.handle stack ctx r ∧
    (loggerLog h stack ctx r = none ↔ ¬ h.handler.minLevel ≤ r.level) := by
  refine ⟨handle_emitted_len h stack ctx r, ?_, ?_⟩
  · rfl
  · by_cases hl : h.handler.minLevel ≤ r.level <;>
      simp [loggerLog, ContextHandler.enabled, Sink.enabled, hl]

/-! ## Concrete witnesses -/

/-- A call-counting-style extractor that always fails, as in the
repository's extractor-error test. -/
def exExtractor : Ctx → List Attr × Option String :=
  fun _ => ([⟨"request_id", .str "12345"⟩], some "context error")

/-- A fully featured configuration: JSON, level 0, add-source with default
key and skip, pid baked, one static extra attribute, failing extractor. -/
def exOptions : ContextHandlerOptions :=
  { useJson := true, level := 0, addSource := true, sourceKey := "",
    writer := none, withPID := true, pidKey := "", callerSkip := 0,
    extraAttrs := [⟨"service", .str "test"⟩],
    appendAttrFromContext := some exExtractor }

/-- The handler built from `exOptions` with process id 42. -/
def exHandler : ContextHandler := NewContextHandler exOptions 42

/-- A concrete call stack; the default skip depth of 3 resolves to the
fourth frame. -/
def exStack : List Frame :=
  [("a.go", 10), ("b.go", 20), ("c.go", 30), ("handler_test.go", 99)]

/-- A concrete record above the configured minimum level. -/
def exRecord : Record := { level := 4, time := 0, msg := "test message", attrs := [] }

/-- A concrete non-background context. -/
def exCtx : Ctx := Ctx.withValue Ctx.background "request_id" "12345"

/-- A concrete derivation chain: static attribute, then a group. -/
def exDerivs : List Deriv := [Deriv.attrs [⟨"static", .str "x"⟩], Deriv.group "g"]

/-- The output of emitting through the derived chain of the C8 scenario. -/
def exGroupOut : HandleOut :=
  (((NewContextHandler exOptions 42).withAttrs [⟨"static", .str "x"⟩]).withGroup "g").handle
    exStack exCtx { level := 4, time := 0, msg := "m", attrs := [⟨"k", .str "v"⟩] }

/-- The record `exGroupOut` delegates to the sink, written out in full. -/
def exRecOut : OutRecord :=
  { level := 4, time := 0, msg := "m",
    attrs := [([], ⟨"pid", .int 42⟩), ([], ⟨"service", .str "test"⟩),
              ([], ⟨"static", .str "x"⟩), (["g"], ⟨"k", .str "v"⟩),
              (["g"], ⟨"source", .str "handler_test.go:99"⟩)] }

/-- Witness for C1: with the failing extractor, the concrete handler still
emits the source-enriched record, surfaces the failure once on the side
channel, and returns the sink's write result. -/
theorem handle_extractor_failure_witness :
    exCtx ≠ Ctx.background ∧
    exHandler.handle exStack exCtx exRecord =
      { emitted := [(exHandler.handler.handle exCtx (exHandler.sourceEnrich exStack exRecord)).1],
        diagnostics := ["failed to append attributes from context: " ++ "context error"],
        extractorCalls := 1,
        result := exHandler.handler.writer.writeErr } :=
  ⟨by decide,
   handle_extractor_failure exHandler exStack exCtx exRecord exExtractor
     "context error" (by decide) rfl rfl⟩

/-- Witness for C3: on the concrete stack, source enrichment appends
exactly the `"source" = "handler_test.go:99"` attribute and the returned
value is the sink's write result. -/
theorem handle_add_source_witness :
    exHandler.addSource = true ∧
    (exHandler.sourceEnrich exStack exRecord).attrs =
      exRecord.attrs ++
        (match runtimeCaller
            (if exHandler.callerSkip = 0 then 3 else exHandler.callerSkip) exStack with
         | some (file, line) =>
           [⟨if exHandler.sourceKey = "" then "source" else exHandler.sourceKey,
             .str (file ++ ":" ++ toString line)⟩]
         | none => []) ∧
    (exHandler.handle exStack exCtx exRecord).result = exHandler.handler.writer.writeErr :=
  ⟨rfl,
   (handle_add_source exHandler exStack exCtx exRecord rfl).1,
   (handle_add_source exHandler exStack exCtx exRecord rfl).2⟩

/-- Witness for C5: through the concrete derivation chain, the emitted
record carries the pid attribute. -/
theorem pid_survives_derivations_witness :
    exOptions.withPID = true ∧ exOptions.level ≤ exRecord.level ∧
    ∃ out : HandleOut,
      loggerLog (applyDerivs (NewContextHandler exOptions 42) exDerivs)
        exStack exCtx exRecord = some out ∧
      ∀ rec ∈ out.emitted,
        (([], ⟨if exOptions.pidKey = "" then "pid" else exOptions.pidKey, .int 42⟩) : QualAttr)
          ∈ rec.attrs :=
  ⟨rfl, by decide,
   pid_survives_derivations exOptions 42 exDerivs exStack exCtx exRecord rfl (by decide)⟩

/-- Witness for C8: for the concrete emitted record, k nests under g,
static stays at the empty group path, and the pid attribute is present. -/
theorem derive_then_emit_grouping_witness :
    exRecOut ∈ exGroupOut.emitted ∧
    ((["g"], ⟨"k", .str "v"⟩) : QualAttr) ∈ exRecOut.attrs ∧
    (([], ⟨"static", .str "x"⟩) : QualAttr) ∈ exRecOut.attrs ∧
    (([], ⟨if exOptions.pidKey = "" then "pid" else exOptions.pidKey, .int 42⟩) : QualAttr)
      ∈ exRecOut.attrs :=
  have hmem : exRecOut ∈ exGroupOut.emitted := by decide
  ⟨hmem,
   (derive_then_emit_grouping exOptions 42 exStack exCtx 4 0 "m" exRecOut hmem).1,
   (derive_then_emit_grouping exOptions 42 exStack exCtx 4 0 "m" exRecOut hmem).2.1,
   (derive_then_emit_grouping exOptions 42 exStack exCtx 4 0 "m" exRecOut hmem).2.2.1 rfl⟩

/-- Witness for C9: the determinism theorem applied at a concrete
configuration, context and record. -/
theorem identical_config_identical_output_witness :
    (exCtx = exCtx) ∧ (exRecord = exRecord) ∧
    (NewContextHandler exOptions 42).handle exStack exCtx exRecord =
      (NewContextHandler exOptions 42).handle exStack exCtx exRecord :=
  ⟨rfl, rfl,
   identical_config_identical_output exOptions 42 exStack exCtx exCtx exRecord exRecord
     rfl rfl⟩
